import Mathlib

/-!
Verification of the generation-and-assembly pipeline of the `cuentos`
storybook application.

JavaScript strings are modelled as `List Char`; each definition below is a
direct transcription of the corresponding function in the repository
(file and line references are given at each definition).  Scanning loops
that consume a variable number of characters per step are written with an
explicit fuel argument (initialised to the string length, which always
suffices) so that every definition is structurally recursive and can be
evaluated by the kernel.
-/

namespace Cuentos

/-! ## Basic string primitives (JS `startsWith` / `includes` / `trim`) -/

/-- Boolean prefix test on character lists (JS literal matching). -/
def pfxB : List Char → List Char → Bool
  | [], _ => true
  | _ :: _, [] => false
  | a :: as, b :: bs => a == b && pfxB as bs

theorem pfxB_iff : ∀ kw s : List Char, pfxB kw s = true ↔ kw <+: s := by
  intro kw
  induction kw with
  | nil => intro s; simp [pfxB]
  | cons a as ih =>
    intro s
    cases s with
    | nil => simp [pfxB]
    | cons b bs =>
      simp only [pfxB, Bool.and_eq_true, beq_iff_eq, ih bs, List.cons_prefix_cons]

theorem pre_to_inf {a b : List Char} (h : a <+: b) : a <:+: b := by
  obtain ⟨t, ht⟩ := h
  exact ⟨[], t, by simpa using ht⟩

theorem suf_to_inf {a b : List Char} (h : a <:+ b) : a <:+: b := by
  obtain ⟨t, ht⟩ := h
  exact ⟨t, [], by simpa using ht⟩

theorem take_pre (n : Nat) (l : List Char) : l.take n <+: l :=
  ⟨l.drop n, List.take_append_drop n l⟩

/-- Boolean substring test on character lists (JS `String.includes`). -/
def containsSub (kw : List Char) : List Char → Bool
  | [] => pfxB kw []
  | c :: rest => pfxB kw (c :: rest) || containsSub kw rest

theorem containsSub_iff (kw : List Char) :
    ∀ s : List Char, containsSub kw s = true ↔ kw <:+: s := by
  intro s
  induction s with
  | nil =>
    simp only [containsSub, pfxB_iff, List.prefix_nil, List.infix_nil]
  | cons c rest ih =>
    simp only [containsSub, Bool.or_eq_true, pfxB_iff, ih]
    constructor
    · rintro (h | h)
      · exact pre_to_inf h
      · obtain ⟨u, v, huv⟩ := h
        exact ⟨c :: u, v, by simp [huv]⟩
    · rintro ⟨u, v, huv⟩
      cases u with
      | nil => left; exact ⟨v, by simpa using huv⟩
      | cons u0 u' =>
        right
        injection huv with h1 h2
        exact ⟨u', v, h2⟩

/-- Whitespace test used by the JS runtime for `trim`, `\s` and `\n\n`
splitting (space, tab, newline, carriage return). -/
def wsB (c : Char) : Bool := c == ' ' || c == '\t' || c == '\n' || c == '\r'

/-- JS `String.prototype.trim`: drop whitespace from both ends. -/
def jsTrim (s : List Char) : List Char :=
  ((s.dropWhile wsB).reverse.dropWhile wsB).reverse

theorem dropWhile_sub_length (p : Char → Bool) (s : List Char) :
    (s.dropWhile p).length ≤ s.length := by
  have h := congrArg List.length (List.takeWhile_append_dropWhile p s)
  simp only [List.length_append] at h
  omega

theorem jsTrim_length_le (s : List Char) : (jsTrim s).length ≤ s.length :=
  calc (jsTrim s).length
      = ((s.dropWhile wsB).reverse.dropWhile wsB).length := by simp [jsTrim]
    _ ≤ (s.dropWhile wsB).reverse.length := dropWhile_sub_length _ _
    _ = (s.dropWhile wsB).length := by simp
    _ ≤ s.length := dropWhile_sub_length _ _

theorem dropWhile_mono_inf {p : Char → Bool} {s t : List Char} (h : s <:+: t) :
    s.dropWhile p <:+: t.dropWhile p := by
  obtain ⟨u, v, rfl⟩ := h
  have hsuf : s.dropWhile p <:+ s := ⟨s.takeWhile p, List.takeWhile_append_dropWhile p s⟩
  rw [List.append_assoc, List.dropWhile_append]
  split
  · rw [List.dropWhile_append]
    split
    · rename_i hse
      have : s.dropWhile p = [] := by simpa [List.isEmpty_iff] using hse
      simp [this]
    · exact ⟨[], v, by simp⟩
  · exact (suf_to_inf hsuf).trans ⟨u.dropWhile p, v, by simp⟩

theorem reverse_mono_inf {s t : List Char} (h : s <:+: t) :
    s.reverse <:+: t.reverse := by
  obtain ⟨u, v, rfl⟩ := h
  exact ⟨v.reverse, u.reverse, by simp⟩

theorem jsTrim_mono_inf {s t : List Char} (h : s <:+: t) :
    jsTrim s <:+: jsTrim t :=
  reverse_mono_inf (dropWhile_mono_inf (reverse_mono_inf (dropWhile_mono_inf h)))

/-! ## Prompt sanitization

`src/app/api/image/generate/route.js` lines 21-29 (`sanitizePrompt`) and
`src/app/api/story/generate/route.js` lines 9-18 (`sanitizeContent`):
two chained JS `String.replace` calls with global case-insensitive
alternation regexes,

    .replace(/violent|explicit|graphic|inappropriate/gi, "gentle")
    .replace(/kill|harm|hurt|weapon/gi, "interact with")

A global alternation replace scans left to right; at each position the
first alternative that matches (case-insensitively) is replaced and the
scan resumes after the consumed text.  Replacement text is not rescanned
within the same pass. -/

/-- Case-insensitive literal match of a (lowercase) keyword at the head
of the string, as done by a `gi` regex alternative. -/
def ciPrefixB (kw s : List Char) : Bool :=
  pfxB kw ((s.take kw.length).map Char.toLower)

/-- One global `String.replace` pass over the string: at each position try
the alternatives in order; on a match emit the replacement and resume
after the matched text.  `fuel` is initialised to the string length,
which always suffices since every step consumes at least one character. -/
def replaceAllF (kws : List (List Char)) (repl : List Char) :
    Nat → List Char → List Char
  | _, [] => []
  | 0, s => s
  | fuel + 1, c :: rest =>
    match kws.find? (fun kw => ciPrefixB kw (c :: rest)) with
    | some kw => repl ++ replaceAllF kws repl fuel (rest.drop (kw.length - 1))
    | none => c :: replaceAllF kws repl fuel rest

def replaceAll (kws : List (List Char)) (repl : List Char) (s : List Char) :
    List Char :=
  replaceAllF kws repl s.length s

/-- Alternatives of the first replace pass, in regex order. -/
def flaggedWordsA : List (List Char) :=
  ["violent".data, "explicit".data, "graphic".data, "inappropriate".data]

/-- Alternatives of the second replace pass, in regex order. -/
def flaggedWordsB : List (List Char) :=
  ["kill".data, "harm".data, "hurt".data, "weapon".data]

/-- Function `sanitizePrompt` from `src/app/api/image/generate/route.js` lines 21-29
(the identical copy lives in `src/unnamed/part_007` lines 13-21). -/
def sanitizePrompt (prompt : List Char) : List Char :=
  replaceAll flaggedWordsB "interact with".data
    (replaceAll flaggedWordsA "gentle".data prompt)

/-- Function `sanitizeContent` from `src/app/api/story/generate/route.js` lines 9-18:
same two passes, preceded by a falsy guard (`if (!content) return content`,
which for strings only matters for the empty string). -/
def sanitizeContent (content : List Char) : List Char :=
  if content.isEmpty then content
  else
    replaceAll flaggedWordsB "interact with".data
      (replaceAll flaggedWordsA "gentle".data content)

/-- A string contains one of the (lowercase) keywords, case-insensitively:
exactly the condition for a `gi` alternation regex to find a match. -/
def hasFlagged (kws : List (List Char)) (s : List Char) : Bool :=
  kws.any (fun kw => containsSub kw (s.map Char.toLower))

theorem ciPrefixB_flag {kws : List (List Char)} {kw : List Char}
    (hkw : kw ∈ kws) {s : List Char} (h : ciPrefixB kw s = true) :
    hasFlagged kws s = true := by
  unfold ciPrefixB at h
  have hp : kw <+: (s.map Char.toLower).take kw.length := by
    have := (pfxB_iff _ _).mp h
    rwa [List.map_take] at this
  have hkpre : kw <+: s.map Char.toLower :=
    hp.trans (take_pre _ _)
  unfold hasFlagged
  rw [List.any_eq_true]
  exact ⟨kw, hkw, (containsSub_iff _ _).mpr (pre_to_inf hkpre)⟩

/-- If a pass finds no match anywhere, the pass is the identity. -/
theorem replaceAllF_id (kws : List (List Char)) (repl : List Char) :
    ∀ fuel s, hasFlagged kws s = false → replaceAllF kws repl fuel s = s := by
  intro fuel
  induction fuel with
  | zero => intro s _; cases s <;> rfl
  | succ fuel ih =>
    intro s hclean
    cases s with
    | nil => rfl
    | cons c rest =>
      have hfind : kws.find? (fun kw => ciPrefixB kw (c :: rest)) = none := by
        rw [List.find?_eq_none]
        intro kw hkw hci
        have := ciPrefixB_flag hkw hci
        rw [hclean] at this
        exact Bool.false_ne_true this
      have hrest : hasFlagged kws rest = false := by
        rcases h : hasFlagged kws rest with _ | _
        · rfl
        · exfalso
          unfold hasFlagged at h hclean
          rw [List.any_eq_true] at h
          obtain ⟨kw, hkw, hc⟩ := h
          have hinf := (containsSub_iff _ _).mp hc
          obtain ⟨u, v, huv⟩ := hinf
          have : containsSub kw ((c :: rest).map Char.toLower) = true := by
            refine (containsSub_iff _ _).mpr ⟨Char.toLower c :: u, v, ?_⟩
            simp [huv]
          have hforall := List.any_eq_false.mp hclean
          exact hforall kw hkw this
      rw [replaceAllF, hfind, ih rest hrest]

theorem replaceAll_id {kws : List (List Char)} {repl s : List Char}
    (h : hasFlagged kws s = false) : replaceAll kws repl s = s :=
  replaceAllF_id kws repl s.length s h

theorem sanitizeContent_eq_sanitizePrompt (s : List Char) :
    sanitizeContent s = sanitizePrompt s := by
  unfold sanitizeContent sanitizePrompt
  cases s with
  | nil => rfl
  | cons c rest => rfl

/-- C2, counterexample: sanitization is not idempotent.  On the input
`"harmarm"` the second pass replaces the leading `harm` by
`interact with`, and the replacement's trailing `...with` together with
the remaining `arm` forms a fresh occurrence of `harm`
(`"interact witharm"`), which a second sanitization pass rewrites again. -/
theorem sanitize_not_idempotent :
    sanitizePrompt (sanitizePrompt "harmarm".data) ≠
        sanitizePrompt "harmarm".data ∧
      sanitizeContent (sanitizeContent "harmarm".data) ≠
        sanitizeContent "harmarm".data := by
  constructor <;> decide

/-- C2, amended: `sanitizeContent` computes exactly the same function as
`sanitizePrompt`, and sanitization is idempotent on every input whose
sanitized output is free of all flagged words (case-insensitively) —
the general claim fails because a replacement can join with adjacent
text to form a fresh flagged word (see the counterexample). -/
theorem sanitize_idempotent_of_clean (p : List Char)
    (hA : hasFlagged flaggedWordsA (sanitizePrompt p) = false)
    (hB : hasFlagged flaggedWordsB (sanitizePrompt p) = false) :
    sanitizePrompt (sanitizePrompt p) = sanitizePrompt p ∧
      sanitizeContent (sanitizeContent p) = sanitizeContent p := by
  have hmain : sanitizePrompt (sanitizePrompt p) = sanitizePrompt p := by
    show replaceAll flaggedWordsB "interact with".data
        (replaceAll flaggedWordsA "gentle".data (sanitizePrompt p)) =
      sanitizePrompt p
    rw [replaceAll_id hA]
    exact replaceAll_id hB
  refine ⟨hmain, ?_⟩
  rw [sanitizeContent_eq_sanitizePrompt, sanitizeContent_eq_sanitizePrompt]
  exact hmain

/-- Witness for C2's amended theorem at the concrete input
`"hello VIOLENT world"`. -/
theorem sanitize_idempotent_of_clean_witness :
    sanitizePrompt (sanitizePrompt "hello VIOLENT world".data) =
        sanitizePrompt "hello VIOLENT world".data ∧
      sanitizeContent (sanitizeContent "hello VIOLENT world".data) =
        sanitizeContent "hello VIOLENT world".data :=
  sanitize_idempotent_of_clean "hello VIOLENT world".data
    (by decide) (by decide)

/-! ## Prompt trimming

`trimPromptToLimit` from `src/app/api/image/generate/route.js` lines
198-249 (identical copy in `src/unnamed/part_007` lines 221-272), with
`MAX_PROMPT_LENGTH = 3800` (route.js line 18 / part_007 line 11). -/

def MAX_PROMPT_LENGTH : Nat := 3800

/-- The separator appended after each kept section (`"\n\n"`). -/
def nn : List Char := ['\n', '\n']

/-- JS `prompt.split("\n\n")`: split at non-overlapping, leftmost
occurrences of two consecutive newlines. -/
def splitNN : List Char → List (List Char)
  | [] => [[]]
  | [c] => [[c]]
  | c :: d :: rest =>
    if c = '\n' ∧ d = '\n' then [] :: splitNN rest
    else
      match splitNN (d :: rest) with
      | [] => [[c]]
      | s :: ss => (c :: s) :: ss

/-- The priority keywords scanned for with `section.includes(keyword)`
(route.js lines 212-219). -/
def priorityKeywords : List (List Char) :=
  ["CHARACTER CONSISTENCY".data, "ANATOMICAL CORRECTNESS".data,
    "IMPORTANT:".data, "TEXT VISIBILITY".data, "CRITICAL".data,
    "FINAL CHECK".data]

def isPrioritySection (s : List Char) : Bool :=
  priorityKeywords.any (fun kw => containsSub kw s)

/-- The greedy accumulation loops of lines 235-246: append a section
(plus `"\n\n"`) whenever it still fits within `maxLength`. -/
def addSections (maxLength : Nat) (init : List Char)
    (secs : List (List Char)) : List Char :=
  secs.foldl
    (fun acc sec =>
      if acc.length + sec.length + 2 ≤ maxLength then acc ++ sec ++ nn
      else acc)
    init

/-- Lines 206-246: first section (plus separator), then the priority
sections, then the remaining sections, each pass greedy. -/
def trimSections (maxLength : Nat) (sections : List (List Char)) :
    List Char :=
  addSections maxLength
    (addSections maxLength (sections.headD [] ++ nn)
      (sections.tail.filter isPrioritySection))
    (sections.tail.filter (fun s => !isPrioritySection s))

/-- Function `trimPromptToLimit(prompt, maxLength)` (route.js lines 198-249). -/
def trimPromptToLimit (prompt : List Char) (maxLength : Nat) : List Char :=
  if prompt.length ≤ maxLength then prompt
  else jsTrim (trimSections maxLength (splitNN prompt))

theorem addSections_le {maxLength : Nat} :
    ∀ {secs : List (List Char)} {init : List Char},
      init.length ≤ maxLength →
      (addSections maxLength init secs).length ≤ maxLength := by
  intro secs
  induction secs with
  | nil => intro init h; exact h
  | cons sec rest ih =>
    intro init h
    show (addSections maxLength
        (if init.length + sec.length + 2 ≤ maxLength then init ++ sec ++ nn
         else init) rest).length ≤ maxLength
    split
    · rename_i hfits
      apply ih
      simp only [List.length_append]
      simpa [nn] using hfits
    · exact ih h

theorem addSections_init_pre {maxLength : Nat} :
    ∀ {secs : List (List Char)} {init : List Char},
      init <+: addSections maxLength init secs := by
  intro secs
  induction secs with
  | nil => intro init; exact List.prefix_rfl
  | cons sec rest ih =>
    intro init
    show init <+: addSections maxLength
        (if init.length + sec.length + 2 ≤ maxLength then init ++ sec ++ nn
         else init) rest
    split
    · exact (List.prefix_append init (sec ++ nn)).trans
        (by simpa [List.append_assoc] using ih)
    · exact ih

theorem addSections_all_kept {maxLength : Nat} :
    ∀ {secs : List (List Char)} {init : List Char},
      init.length + (secs.map (fun s => s.length + 2)).sum ≤ maxLength →
      ∀ P ∈ secs, P <:+: addSections maxLength init secs := by
  intro secs
  induction secs with
  | nil => intro init _ P hP; cases hP
  | cons sec rest ih =>
    intro init hsum P hP
    have hfit : init.length + sec.length + 2 ≤ maxLength := by
      simp only [List.map_cons, List.sum_cons] at hsum
      omega
    show P <:+: addSections maxLength
        (if init.length + sec.length + 2 ≤ maxLength then init ++ sec ++ nn
         else init) rest
    rw [if_pos hfit]
    rcases List.mem_cons.mp hP with rfl | hP
    · -- `P = sec`: kept in this step; the step result stays a prefix later.
      have h1 : P <:+: init ++ P ++ nn := ⟨init, nn, by simp⟩
      have h2 : init ++ P ++ nn <+:
          addSections maxLength (init ++ P ++ nn) rest := addSections_init_pre
      obtain ⟨w, hw⟩ := h2
      obtain ⟨u, v, huv⟩ := h1
      exact ⟨u, v ++ w, by rw [← hw, ← huv]; simp⟩
    · apply ih _ P hP
      simp only [List.map_cons, List.sum_cons] at hsum
      simp only [List.length_append]
      simp only [nn, List.length_cons, List.length_nil]
      omega

theorem pre_trans_inf {a b c : List Char} (h1 : a <:+: b) (h2 : b <+: c) :
    a <:+: c := by
  obtain ⟨w, hw⟩ := h2
  obtain ⟨u, v, huv⟩ := h1
  exact ⟨u, v ++ w, by rw [← hw, ← huv]; simp⟩

/-- C10: trimming is the identity on prompts already within the budget
(route.js line 199: `if (prompt.length <= maxLength) return prompt`). -/
theorem trimPromptToLimit_id (p : List Char) (maxLength : Nat)
    (h : p.length ≤ maxLength) : trimPromptToLimit p maxLength = p := by
  unfold trimPromptToLimit
  exact if_pos h

/-- Witness for C10 at a concrete prompt. -/
theorem trimPromptToLimit_id_witness :
    trimPromptToLimit "hello world".data MAX_PROMPT_LENGTH =
      "hello world".data :=
  trimPromptToLimit_id "hello world".data MAX_PROMPT_LENGTH (by decide)

/-- C1, amended: for an over-budget prompt whose first
double-newline-separated segment fits in the budget, the trimmed result
is within budget; and whenever the first segment together with all
priority segments jointly fits, every priority segment is retained (its
trimmed form occurs contiguously in the result), regardless of how much
non-priority material competes — priority segments are added before any
non-priority segment. -/
theorem trimPromptToLimit_budget (prompt : List Char) (maxLength : Nat)
    (hover : maxLength < prompt.length)
    (hfirst : ((splitNN prompt).headD []).length + 2 ≤ maxLength) :
    (trimPromptToLimit prompt maxLength).length ≤ maxLength ∧
      (((splitNN prompt).headD []).length + 2 +
          (((splitNN prompt).tail.filter isPrioritySection).map
            (fun s => s.length + 2)).sum ≤ maxLength →
        ∀ P ∈ (splitNN prompt).tail.filter isPrioritySection,
          jsTrim P <:+: trimPromptToLimit prompt maxLength) := by
  have hinit : ((splitNN prompt).headD [] ++ nn).length ≤ maxLength := by
    simp only [List.length_append, nn, List.length_cons, List.length_nil]
    omega
  have hbranch : trimPromptToLimit prompt maxLength =
      jsTrim (trimSections maxLength (splitNN prompt)) := by
    unfold trimPromptToLimit
    rw [if_neg (by omega)]
  constructor
  · rw [hbranch]
    exact (jsTrim_length_le _).trans
      (addSections_le (addSections_le hinit))
  · intro hsum P hP
    rw [hbranch]
    have h2 : P <:+: addSections maxLength
        ((splitNN prompt).headD [] ++ nn)
        ((splitNN prompt).tail.filter isPrioritySection) := by
      apply addSections_all_kept _ P hP
      simp only [List.length_append, nn, List.length_cons, List.length_nil]
      omega
    have h3 : P <:+: trimSections maxLength (splitNN prompt) :=
      pre_trans_inf h2 addSections_init_pre
    exact jsTrim_mono_inf h3

/-- A concrete 49-character prompt: a short head section, one priority
section carrying `CRITICAL`, and a long non-priority section. -/
def promptW : List Char :=
  "HEAD".data ++ nn ++ "CRITICAL st".data ++ nn ++ List.replicate 30 'z'

/-- Witness for C1's amended theorem at `promptW` with budget 40: the
priority section fits and is kept while the long non-priority tail is
dropped. -/
theorem trimPromptToLimit_budget_witness :
    40 < promptW.length ∧
      ((trimPromptToLimit promptW 40).length ≤ 40 ∧
        (((splitNN promptW).headD []).length + 2 +
            (((splitNN promptW).tail.filter isPrioritySection).map
              (fun s => s.length + 2)).sum ≤ 40 →
          ∀ P ∈ (splitNN promptW).tail.filter isPrioritySection,
            jsTrim P <:+: trimPromptToLimit promptW 40)) :=
  ⟨by decide, trimPromptToLimit_budget promptW 40 (by decide) (by decide)⟩

theorem splitNN_of_no_newline :
    ∀ s : List Char, (∀ c ∈ s, c ≠ '\n') → splitNN s = [s] := by
  intro s
  induction s with
  | nil => intro _; rfl
  | cons c rest ih =>
    intro h
    cases rest with
    | nil => rfl
    | cons d rest' =>
      have hc : c ≠ '\n' := h c (by simp)
      have hrec : splitNN (d :: rest') = [d :: rest'] :=
        ih (fun x hx => h x (by simp [hx]))
      show (if c = '\n' ∧ d = '\n' then [] :: splitNN rest'
        else
          match splitNN (d :: rest') with
          | [] => [[c]]
          | s :: ss => (c :: s) :: ss) = [c :: d :: rest']
      rw [if_neg (fun hand => hc hand.1), hrec]

theorem dropWhile_id_of_no_ws (l : List Char)
    (h : ∀ c ∈ l, wsB c = false) : l.dropWhile wsB = l := by
  cases l with
  | nil => rfl
  | cons a l => simp [List.dropWhile_cons, h a (by simp)]

theorem jsTrim_append_sep (s : List Char)
    (h : ∀ c ∈ s, wsB c = false) : jsTrim (s ++ nn) = s := by
  cases s with
  | nil => decide
  | cons a s' =>
    unfold jsTrim
    have h1 : ((a :: s') ++ nn).dropWhile wsB = (a :: s') ++ nn := by
      have := h a (by simp)
      simp [List.dropWhile_cons, this]
    rw [h1]
    have h2 : ((a :: s') ++ nn).reverse = '\n' :: '\n' :: (a :: s').reverse := by
      simp [nn]
    rw [h2]
    have h3 : ('\n' :: '\n' :: (a :: s').reverse).dropWhile wsB =
        (a :: s').reverse := by
      rw [List.dropWhile_cons_of_pos (by decide),
        List.dropWhile_cons_of_pos (by decide)]
      exact dropWhile_id_of_no_ws _
        (fun c hc => h c (List.mem_reverse.mp hc))
    rw [h3, List.reverse_reverse]

/-- The offending prompt: 3801 characters, no double newline at all. -/
def promptA : List Char := List.replicate 3801 'a'

theorem trimPromptToLimit_promptA :
    trimPromptToLimit promptA MAX_PROMPT_LENGTH = promptA := by
  have hlen : promptA.length = 3801 := List.length_replicate 3801 'a'
  have hsplit : splitNN promptA = [promptA] :=
    splitNN_of_no_newline promptA
      (by intro c hc; rw [List.eq_of_mem_replicate hc]; decide)
  unfold trimPromptToLimit
  rw [if_neg (by rw [hlen]; decide), hsplit]
  show jsTrim (addSections MAX_PROMPT_LENGTH
      (addSections MAX_PROMPT_LENGTH (promptA ++ nn) ([].filter _))
      ([].filter _)) = promptA
  show jsTrim (promptA ++ nn) = promptA
  exact jsTrim_append_sep promptA
    (by intro c hc; rw [List.eq_of_mem_replicate hc]; decide)

/-- C1, counterexample: the claimed length bound fails.  A 3801-character
prompt containing no double newline exceeds the 3800-character budget,
yet `trimPromptToLimit` returns it whole: the single "first section" is
installed unconditionally (line 209) and only the end is trimmed. -/
theorem trimPromptToLimit_not_bounded :
    ¬ (∀ p : List Char, MAX_PROMPT_LENGTH < p.length →
        (trimPromptToLimit p MAX_PROMPT_LENGTH).length ≤
          MAX_PROMPT_LENGTH) := by
  intro hclaim
  have hlen : promptA.length = 3801 := List.length_replicate 3801 'a'
  have h := hclaim promptA (by rw [hlen]; decide)
  rw [trimPromptToLimit_promptA, hlen] at h
  exact absurd h (by decide)

/-! ## Folder-name derivation

The repository derives a story folder name from the title at several call
sites, using two different sanitization schemes. -/

def isAsciiAlnum (c : Char) : Bool :=
  ('a' ≤ c && c ≤ 'z') || ('A' ≤ c && c ≤ 'Z') || ('0' ≤ c && c ≤ '9')

/-- Function `sanitizeForFolder` from `src/app/api/save-story/route.ts` lines 10-12:
`str.replace(/[^a-zA-Z0-9]/g, "_").toLowerCase()`. -/
def sanitizeForFolder (s : List Char) : List Char :=
  (s.map (fun c => if isAsciiAlnum c then c else '_')).map Char.toLower

/-- The folder derivation inside `saveImageToDisk` of
`src/app/api/generate-story/route.ts` line 71:
`storyTitle.replace(/[^a-zA-Z0-9]/g, "_").toLowerCase()`. -/
def generateStoryFolderName (s : List Char) : List Char :=
  (s.map (fun c => if isAsciiAlnum c then c else '_')).map Char.toLower

/-- JS word character (`\w` = `[A-Za-z0-9_]`). -/
def isWordChar (c : Char) : Bool := isAsciiAlnum c || c == '_'

/-- JS `.replace(/\s+/g, "_")`: each maximal whitespace run becomes a
single underscore.  Fuel is the string length (each step consumes at
least one character). -/
def collapseWsF : Nat → List Char → List Char
  | _, [] => []
  | 0, s => s
  | fuel + 1, c :: rest =>
    if wsB c then '_' :: collapseWsF fuel (rest.dropWhile wsB)
    else c :: collapseWsF fuel rest

def collapseWs (s : List Char) : List Char := collapseWsF s.length s

/-- The folder derivation in `src/app/api/image/generate/route.js` lines
269-272:
`title.replace(/[^\w\s]/gi, "").replace(/\s+/g, "_").toLowerCase()`. -/
def imageGenFolderName (title : List Char) : List Char :=
  (collapseWs (title.filter (fun c => isWordChar c || wsB c))).map
    Char.toLower

/-- The folder derivation in `src/unnamed/part_010` lines 179-182
(story-and-image generation), character-for-character the same
transformation as the one in the image-generation route. -/
def storyImageGenFolderName (title : List Char) : List Char :=
  (collapseWs (title.filter (fun c => isWordChar c || wsB c))).map
    Char.toLower

/-- C7, counterexample: the same title does not map to the same folder
name in every pipeline stage.  For the title `"a-b"`, save-story
produces `"a_b"` (non-alphanumerics become underscores) while image
generation produces `"ab"` (non-word, non-space characters are deleted
before whitespace is collapsed). -/
theorem folderName_stage_mismatch :
    sanitizeForFolder "a-b".data ≠ imageGenFolderName "a-b".data ∧
      sanitizeForFolder "a-b".data = "a_b".data ∧
      imageGenFolderName "a-b".data = "ab".data := by
  refine ⟨?_, by decide, by decide⟩
  decide

/-- C7, amended: the derivation at each call site is a deterministic
function of the title, and the image-generation route and the
story-and-image route share one scheme while save-story and the
generate-story local save share the other; the two schemes differ on
titles containing punctuation or repeated whitespace. -/
theorem folderName_schemes_agree (t : List Char) :
    imageGenFolderName t = storyImageGenFolderName t ∧
      sanitizeForFolder t = generateStoryFolderName t :=
  ⟨rfl, rfl⟩

/-! ## Story-generation endpoint: response validation and sanitization

`src/app/api/story/generate/route.js` lines 203-239: the GPT response is
parsed, the presence of `title`, `coverDescription` and a `pages` array is
checked with JS truthiness (line 208-213), and on success the fields are
sanitized and the object is returned unchanged otherwise.  The prompt
(line 158) demands "exactly 8 pages", but no code checks the length of
the returned `pages` array. -/

/-- A parsed page of the model response. -/
structure StoryPageJs where
  content : List Char
  imageDescription : List Char
deriving DecidableEq

/-- The parsed model response.  `none` models an absent field; the pages
field models `pages` when it is an array (a non-array `pages` also fails
the `Array.isArray` check, exactly like an absent one). -/
structure RawStoryData where
  title : Option (List Char)
  coverDescription : Option (List Char)
  pages : Option (List StoryPageJs)
deriving DecidableEq

/-- The validated, sanitized story document returned to the caller. -/
structure StoryDataOut where
  title : List Char
  coverDescription : List Char
  pages : List StoryPageJs
deriving DecidableEq

/-- JS truthiness of a possibly-absent string: absent, `null` and the
empty string are all falsy. -/
def jsTruthy : Option (List Char) → Bool
  | none => false
  | some s => !s.isEmpty

/-- The page count demanded by the generation prompt (route.js line 158:
"The story must be divided into exactly 8 pages"). -/
def CONFIGURED_PAGE_COUNT : Nat := 8

/-- The post-parse behaviour of the POST handler of
`src/app/api/story/generate/route.js` (lines 205-239) as a function of
the parsed model response: validate, then sanitize and return. -/
def storyGeneratePOST (d : RawStoryData) : Except (List Char) StoryDataOut :=
  if jsTruthy d.title && jsTruthy d.coverDescription && d.pages.isSome then
    Except.ok
      { title := sanitizeContent (d.title.getD [])
        coverDescription := sanitizeContent (d.coverDescription.getD [])
        pages :=
          (d.pages.getD []).map fun p =>
            { content := sanitizeContent p.content
              imageDescription := sanitizeContent p.imageDescription } }
  else Except.error "Failed to generate a valid story format".data

/-- A model response with three pages that passes validation. -/
def rawThreePages : RawStoryData :=
  { title := some "T".data
    coverDescription := some "C".data
    pages :=
      some [⟨"p one".data, "d one".data⟩, ⟨"p two".data, "d two".data⟩,
        ⟨"p three".data, "d three".data⟩] }

/-- The document the endpoint returns for `rawThreePages`. -/
def outThreePages : StoryDataOut :=
  { title := "T".data
    coverDescription := "C".data
    pages :=
      [⟨"p one".data, "d one".data⟩, ⟨"p two".data, "d two".data⟩,
        ⟨"p three".data, "d three".data⟩] }

/-- C5, counterexample: a model response with 3 pages (instead of the 8
demanded by the prompt) passes validation unchanged, so the returned
document does not have the configured page count. -/
theorem storyGenerate_page_count_not_enforced :
    storyGeneratePOST rawThreePages = Except.ok outThreePages ∧
      outThreePages.pages.length ≠ CONFIGURED_PAGE_COUNT := by
  exact ⟨rfl, by decide⟩

/-- C5, amended: the returned document's `pages` length always equals
the length of the `pages` array of the model response; the configured
count of 8 is requested in the prompt but never validated or enforced. -/
theorem storyGenerate_pages_len (d : RawStoryData) (out : StoryDataOut)
    (h : storyGeneratePOST d = Except.ok out) :
    out.pages.length = (d.pages.getD []).length := by
  unfold storyGeneratePOST at h
  split at h
  · injection h with h
    rw [← h]
    simp
  · cases h

/-- Witness for C5's amended theorem at `rawThreePages`. -/
theorem storyGenerate_pages_len_witness :
    outThreePages.pages.length = (rawThreePages.pages.getD []).length :=
  storyGenerate_pages_len rawThreePages outThreePages rfl

/-- A response in which all three fields are present but the title is the
empty string. -/
def rawEmptyTitle : RawStoryData :=
  { title := some []
    coverDescription := some "C".data
    pages := some [⟨"p".data, "d".data⟩] }

/-- C6, counterexample: a response in which `title`, `coverDescription`
and `pages` are all present still fails the format check when the title
is the empty string — JS truthiness treats a present-but-empty string
like a missing one, so mere presence of the three fields does not
preclude the 500 format failure. -/
theorem storyGenerate_fails_on_empty_title :
    rawEmptyTitle.title.isSome = true ∧
      rawEmptyTitle.coverDescription.isSome = true ∧
      rawEmptyTitle.pages.isSome = true ∧
      storyGeneratePOST rawEmptyTitle =
        Except.error "Failed to generate a valid story format".data := by
  exact ⟨rfl, rfl, rfl, rfl⟩

/-- C6, amended: the endpoint fails with the 500-class format error
exactly when the response's `title` is missing or empty, or its
`coverDescription` is missing or empty, or its `pages` array is missing;
otherwise it succeeds (no format failure).  The handler makes a single
model call and performs no repair on failure (the error branch returns
immediately). -/
theorem storyGenerate_error_iff (d : RawStoryData) :
    (∃ e, storyGeneratePOST d = Except.error e) ↔
      (jsTruthy d.title = false ∨ jsTruthy d.coverDescription = false ∨
        d.pages = none) := by
  unfold storyGeneratePOST
  split
  · rename_i hcond
    simp only [Bool.and_eq_true] at hcond
    obtain ⟨⟨h1, h2⟩, h3⟩ := hcond
    constructor
    · rintro ⟨e, he⟩; cases he
    · rintro (h | h | h)
      · rw [h1] at h; cases h
      · rw [h2] at h; cases h
      · rw [h] at h3; cases h3
  · rename_i hcond
    constructor
    · intro _
      rcases hb1 : jsTruthy d.title with _ | _
      · exact Or.inl rfl
      rcases hb2 : jsTruthy d.coverDescription with _ | _
      · exact Or.inr (Or.inl rfl)
      rcases hb3 : d.pages with _ | p
      · exact Or.inr (Or.inr rfl)
      · exact absurd (by rw [hb1, hb2, hb3]; rfl) hcond
    · intro _
      exact ⟨_, rfl⟩

/-! ## Character-extraction heuristic

`src/app/api/image/generate/route.js` lines 332-394.  The name regex is

    /([A-Z][a-z]+)(?:\s+is|\s+was|\s+the\s+(?:boy|girl|child|protagonist|main\s+character))/

(`.match` without `g`: leftmost match, capture group 1), and the
description regex, built from the captured name, is

    new RegExp(`${name}\\s+(?:is|was|has|with|wearing)\\s+[^.]+\\.`, "g")

(`.match` with `g`: all leftmost non-overlapping matches, joined with a
single space). -/

def isUpperAZ (c : Char) : Bool := 'A' ≤ c && c ≤ 'Z'

def isLowerAZ (c : Char) : Bool := 'a' ≤ c && c ≤ 'z'

/-- Matches `(?:\s+is|\s+was|\s+the\s+(?:boy|girl|child|protagonist|main\s+character))`
at the head of `s` (no word boundary is required after the literals, just
as in the source regex). -/
def matchNameTail (s : List Char) : Bool :=
  if (s.takeWhile wsB).isEmpty then false
  else
    let t := s.dropWhile wsB
    if pfxB "is".data t || pfxB "was".data t then true
    else if pfxB "the".data t then
      let t2 := t.drop 3
      if (t2.takeWhile wsB).isEmpty then false
      else
        let t3 := t2.dropWhile wsB
        if pfxB "boy".data t3 || pfxB "girl".data t3 ||
            pfxB "child".data t3 || pfxB "protagonist".data t3 then true
        else if pfxB "main".data t3 then
          let t4 := t3.drop 4
          !(t4.takeWhile wsB).isEmpty &&
            pfxB "character".data (t4.dropWhile wsB)
        else false
    else false

/-- Attempt of the name regex anchored at the head of `s`: an uppercase
letter, a maximal nonempty run of lowercase letters (the capture), then
`matchNameTail`. -/
def matchNameAt : List Char → Option (List Char)
  | [] => none
  | c :: rest =>
    if isUpperAZ c then
      let low := rest.takeWhile isLowerAZ
      if low.isEmpty then none
      else if matchNameTail (rest.dropWhile isLowerAZ) then some (c :: low)
      else none
    else none

/-- Leftmost match of the name regex: first position where `matchNameAt`
succeeds (JS `.match` without the `g` flag). -/
def findProtagonistName : List Char → Option (List Char)
  | [] => none
  | c :: rest =>
    match matchNameAt (c :: rest) with
    | some n => some n
    | none => findProtagonistName rest

/-- Matches one of `is|was|has|with|wearing` at the head of `t`
(alternatives in source order), returning the matched length. -/
def matchVerb (t : List Char) : Option Nat :=
  if pfxB "is".data t then some 2
  else if pfxB "was".data t then some 3
  else if pfxB "has".data t then some 3
  else if pfxB "with".data t then some 4
  else if pfxB "wearing".data t then some 7
  else none

/-- Attempt of the description regex `name\s+(?:is|was|has|with|wearing)\s+[^.]+\.`
anchored at the head of `s`, returning the match length.  The trailing
`\s+[^.]+\.` matches (with backtracking, since `[^.]` accepts whitespace)
exactly when the text after the verb starts with a whitespace character
and holds a period preceded by at least two characters; the match then
extends through the first period. -/
def matchDescAt (name : List Char) (s : List Char) : Option Nat :=
  if pfxB name s then
    let r1 := s.drop name.length
    if (r1.takeWhile wsB).isEmpty then none
    else
      let ws1 := r1.takeWhile wsB
      let r2 := r1.dropWhile wsB
      match matchVerb r2 with
      | none => none
      | some vlen =>
        let r3 := r2.drop vlen
        let pre := r3.takeWhile (fun c => !(c == '.'))
        if wsB (r3.headD '.') && decide (2 ≤ pre.length) &&
            decide (pre.length < r3.length) then
          some (name.length + ws1.length + vlen + pre.length + 1)
        else none
  else none

/-- All leftmost non-overlapping matches of the description regex (JS
`.match` with the `g` flag).  Fuel is the string length. -/
def descMatchesF (name : List Char) : Nat → List Char → List (List Char)
  | _, [] => []
  | 0, _ => []
  | fuel + 1, c :: rest =>
    match matchDescAt name (c :: rest) with
    | some len =>
      (c :: rest).take len :: descMatchesF name fuel ((c :: rest).drop len)
    | none => descMatchesF name fuel rest

def descMatches (name s : List Char) : List (List Char) :=
  descMatchesF name s.length s

/-- JS `Array.prototype.join(" ")`. -/
def joinSpace : List (List Char) → List Char
  | [] => []
  | [s] => s
  | s :: rest => s ++ ' ' :: joinSpace rest

/-- A page as received by the image-generation endpoint. -/
structure PageIn where
  content : List Char
  imageDescription : List Char
deriving DecidableEq

/-- First extraction loop (route.js lines 337-365): for each page with a
truthy image description, run the name regex; on a name match overwrite
the current name and look for description sentences in the same page,
breaking out of the loop only when at least one is found. -/
def extractNameDesc : List PageIn → List Char × List Char →
    List Char × List Char
  | [], acc => acc
  | p :: rest, (name, desc) =>
    if p.imageDescription.isEmpty then extractNameDesc rest (name, desc)
    else
      match findProtagonistName p.imageDescription with
      | none => extractNameDesc rest (name, desc)
      | some n =>
        let ms := descMatches n p.imageDescription
        if ms.isEmpty then extractNameDesc rest (n, desc)
        else (n, joinSpace ms)

/-- Second loop (lines 368-386): look for description sentences in the
page text contents, using the name found by the first loop. -/
def findDescInContents (name : List Char) : List PageIn → List Char
  | [] => []
  | p :: rest =>
    if p.content.isEmpty then findDescInContents name rest
    else
      let ms := descMatches name p.content
      if ms.isEmpty then findDescInContents name rest else joinSpace ms

/-- The complete heuristic (lines 332-394), returning the protagonist
name and description: first loop over image descriptions, then (when a
name but no description was found) over page contents, then the fallback
to the first page's image description (lines 389-394). -/
def extractProtagonist (pages : List PageIn) : List Char × List Char :=
  let nd := extractNameDesc pages ([], [])
  let desc1 :=
    if nd.2.isEmpty && !nd.1.isEmpty then
      let d := findDescInContents nd.1 pages
      if d.isEmpty then nd.2 else d
    else nd.2
  let desc2 :=
    if desc1.isEmpty then (pages.headD ⟨[], []⟩).imageDescription
    else desc1
  (nd.1, desc2)

/-- The spec's example sentence. -/
def mariaSentence : List Char :=
  "Maria is a seven-year-old girl with curly red hair.".data

/-- An image description in which earlier text in the same page also
matches the name pattern. -/
def tomMariaDesc : List Char :=
  "Tom is tall. Maria is a seven-year-old girl with curly red hair.".data

/-- C8, counterexample: a single page (so no earlier page matches the
name pattern) whose image description contains the Maria sentence, yet
the heuristic extracts `"Tom"` — the leftmost name-pattern match in the
same page wins, so the claim's conclusion fails. -/
theorem extract_maria_not_extracted :
    containsSub mariaSentence tomMariaDesc = true ∧
      (extractProtagonist [⟨[], tomMariaDesc⟩]).1 = "Tom".data ∧
      (extractProtagonist [⟨[], tomMariaDesc⟩]).1 ≠ "Maria".data := by
  refine ⟨by decide, ?_, by decide⟩
  decide

/-- C8, amended: (a) when the Maria sentence is the leftmost name-pattern
match — in particular when the first page's image description is exactly
the sentence — the heuristic extracts `"Maria"` together with a
description sentence containing "curly red hair", for every page content
and all later pages; (b) when the name pattern matches in no page's
image description, the returned description is the first page's image
description, verbatim. -/
theorem extractProtagonist_spec :
    (∀ (c : List Char) (rest : List PageIn),
        extractProtagonist (⟨c, mariaSentence⟩ :: rest) =
          ("Maria".data, mariaSentence) ∧
          containsSub "curly red hair".data mariaSentence = true) ∧
      ∀ pages : List PageIn, pages ≠ [] →
        (∀ p ∈ pages, findProtagonistName p.imageDescription = none) →
        (extractProtagonist pages).2 =
          (pages.headD ⟨[], []⟩).imageDescription := by
  constructor
  · intro c rest
    constructor
    · rfl
    · decide
  · intro pages hne hnone
    have hloop : ∀ ps : List PageIn,
        (∀ p ∈ ps, findProtagonistName p.imageDescription = none) →
        extractNameDesc ps ([], []) = ([], []) := by
      intro ps
      induction ps with
      | nil => intro _; rfl
      | cons p rest ih =>
        intro h
        show (if p.imageDescription.isEmpty then
            extractNameDesc rest ([], [])
          else
            match findProtagonistName p.imageDescription with
            | none => extractNameDesc rest ([], [])
            | some n =>
              let ms := descMatches n p.imageDescription
              if ms.isEmpty then extractNameDesc rest (n, [])
              else (n, joinSpace ms)) = ([], [])
        rw [h p (by simp)]
        have := ih (fun q hq => h q (by simp [hq]))
        split <;> exact this
    unfold extractProtagonist
    rw [hloop pages hnone]
    rfl

/-- Witness for C8's amended theorem: part (a) at the empty content and
no further pages, part (b) at a one-page story whose description has no
name pattern. -/
theorem extractProtagonist_spec_witness :
    (extractProtagonist [⟨[], mariaSentence⟩] =
        ("Maria".data, mariaSentence) ∧
        containsSub "curly red hair".data mariaSentence = true) ∧
      (extractProtagonist [⟨"x".data, "a quiet meadow at dawn".data⟩]).2 =
        "a quiet meadow at dawn".data :=
  ⟨extractProtagonist_spec.1 [] [],
    extractProtagonist_spec.2 [⟨"x".data, "a quiet meadow at dawn".data⟩]
      (by decide) (by decide)⟩

/-! ## Story-and-image pipeline: progress, resume and the retry pass

`src/unnamed/part_010`.  `checkExistingProgress` (lines 124-137) reads a
progress record `{coverGenerated, pagesGenerated, failedPages}`.  The
main loop (lines 377-455) requests an image for every page whose number
is not in `pagesGenerated` and calls `saveGenerationProgress` after each
attempt, success or failure.  If afterwards `0 < failedPages.length <
total` holds, the retry pass (lines 476-549) begins; its first statement
builds `retryPrompt` from `consistentCharacterPrompt` (line 504) — but
that constant is declared inside the cover-generation `if` block (line
316) and is block-scoped, so evaluating the template throws a
`ReferenceError` before any retry image request is issued; the outer
handler (line 581) turns it into a 500 response.  A cover failure also
aborts with 500 (lines 344-352). -/

/-- The persisted progress record. -/
structure Progress where
  coverGenerated : Bool
  pagesGenerated : List Nat
  failedPages : List Nat
deriving DecidableEq

/-- The in-memory `generationResults` object (lines 368-374). -/
structure GenResults where
  total : Nat
  successful : Nat
  failed : Nat
  failedPages : List Nat
  pagesGenerated : List Nat
deriving DecidableEq

/-- Externally visible pipeline events: image requests and progress
writes. -/
inductive Ev where
  | coverReq : Ev
  | pageReq : Nat → Ev
  | save : GenResults → Ev
  | saveCover : Ev
deriving DecidableEq

inductive RunStatus where
  | ok : RunStatus
  | error500 : RunStatus
deriving DecidableEq

/-- Lines 368-374: results seeded from the stored progress. -/
def initResults (numPages : Nat) (prog : Progress) : GenResults :=
  { total := numPages, successful := prog.pagesGenerated.length,
    failed := 0, failedPages := prog.failedPages,
    pagesGenerated := prog.pagesGenerated }

/-- Lines 377-383: the indices of the pages still to generate. -/
def pagesToGenerate (numPages : Nat) (prog : Progress) : List Nat :=
  (List.range numPages).filter
    (fun i => !(prog.pagesGenerated.contains (i + 1)))

/-- The main generation loop (lines 389-455), parametrized by the
combined generate-and-download outcome of each page.  Each attempt is
followed by a progress write carrying the updated results. -/
def runMainPass (outcome : Nat → Bool) :
    List Nat → GenResults → List Ev × GenResults
  | [], res => ([], res)
  | i :: rest, res =>
    let pageNum := i + 1
    let res' :=
      if outcome pageNum then
        { res with successful := res.successful + 1,
                   pagesGenerated := res.pagesGenerated ++ [pageNum] }
      else
        { res with failed := res.failed + 1,
                   failedPages := res.failedPages ++ [pageNum] }
    let next := runMainPass outcome rest res'
    (Ev.pageReq pageNum :: Ev.save res' :: next.1, next.2)

/-- The page phase of the POST handler: main loop, then the retry pass
guard (line 477-480).  Entering the retry pass throws the
`ReferenceError` described above before issuing any request, so the
event trace ends with the main pass and the status becomes a 500. -/
def pagesPhase (numPages : Nat) (prog : Progress) (outcome : Nat → Bool) :
    List Ev × GenResults × RunStatus :=
  let main := runMainPass outcome (pagesToGenerate numPages prog)
    (initResults numPages prog)
  (main.1, main.2,
    if 0 < main.2.failedPages.length ∧
        main.2.failedPages.length < main.2.total then
      RunStatus.error500
    else RunStatus.ok)

/-- The POST handler from the cover stage on (lines 305-591): regenerate
the cover when the stored record does not mark it generated (a failing
cover aborts with 500), then run the page phase. -/
def storyImagePipeline (numPages : Nat) (prog : Progress)
    (coverOutcome : Bool) (outcome : Nat → Bool) :
    List Ev × GenResults × RunStatus :=
  if prog.coverGenerated then pagesPhase numPages prog outcome
  else if coverOutcome then
    let rest := pagesPhase numPages prog outcome
    (Ev.coverReq :: Ev.saveCover :: rest.1, rest.2)
  else ([Ev.coverReq], initResults numPages prog, RunStatus.error500)

def isSaveEv : Ev → Bool
  | Ev.save _ => true
  | _ => false

def isPageReqEv : Ev → Bool
  | Ev.pageReq _ => true
  | _ => false

/-- Every page attempt is immediately followed by a progress write. -/
def savedAfterEachPageAttempt : List Ev → Bool
  | [] => true
  | [e] => !isPageReqEv e
  | e :: e2 :: rest =>
    (!isPageReqEv e || isSaveEv e2) && savedAfterEachPageAttempt (e2 :: rest)

theorem savedAfter_save_cons (r : GenResults) (l : List Ev) :
    savedAfterEachPageAttempt (Ev.save r :: l) =
      savedAfterEachPageAttempt l := by
  cases l with
  | nil => rfl
  | cons e rest => simp [savedAfterEachPageAttempt, isPageReqEv]

theorem savedAfter_pageReq_save (n : Nat) (r : GenResults) (l : List Ev) :
    savedAfterEachPageAttempt (Ev.pageReq n :: Ev.save r :: l) =
      savedAfterEachPageAttempt (Ev.save r :: l) := by
  simp [savedAfterEachPageAttempt, isPageReqEv, isSaveEv]

theorem runMainPass_pageReq {outcome : Nat → Bool} :
    ∀ {idxs : List Nat} {res : GenResults} {n : Nat},
      Ev.pageReq n ∈ (runMainPass outcome idxs res).1 →
      ∃ i ∈ idxs, n = i + 1 := by
  intro idxs
  induction idxs with
  | nil => intro res n h; cases h
  | cons i rest ih =>
    intro res n h
    simp only [runMainPass] at h
    rcases List.mem_cons.mp h with h | h
    · exact ⟨i, by simp, by simpa using h⟩
    rcases List.mem_cons.mp h with h | h
    · cases h
    · obtain ⟨j, hj, hn⟩ := ih h
      exact ⟨j, by simp [hj], hn⟩

theorem runMainPass_saved {outcome : Nat → Bool} :
    ∀ {idxs : List Nat} {res : GenResults},
      savedAfterEachPageAttempt (runMainPass outcome idxs res).1 = true := by
  intro idxs
  induction idxs with
  | nil => intro res; rfl
  | cons i rest ih =>
    intro res
    simp only [runMainPass]
    rw [savedAfter_pageReq_save, savedAfter_save_cons]
    exact ih

theorem savedAfter_other_cons (e : Ev) (he : isPageReqEv e = false)
    (l : List Ev) :
    savedAfterEachPageAttempt (e :: l) = savedAfterEachPageAttempt l := by
  cases l with
  | nil => simp [savedAfterEachPageAttempt, he]
  | cons e2 rest => simp [savedAfterEachPageAttempt, he]

/-- C3: re-running the pipeline with a stored record marking pages 1 and
2 succeeded and page 3 failed (for a 3-page story) issues page-image
requests only for page 3 — never for pages 1 or 2 — and every page
attempt is immediately followed by a rewrite of the progress record.
This holds for every cover state and every generation outcome: the main
pass touches only page 3 and saves after each attempt, and the retry
pass (whose failure branch would not save) always aborts on its
out-of-scope variable reference before issuing any request. -/
theorem resume_requests_only_page3 (cov coverOutcome : Bool)
    (outcome : Nat → Bool) :
    (∀ n,
        Ev.pageReq n ∈
          (storyImagePipeline 3 ⟨cov, [1, 2], [3]⟩ coverOutcome outcome).1 →
        n = 3) ∧
      savedAfterEachPageAttempt
        (storyImagePipeline 3 ⟨cov, [1, 2], [3]⟩ coverOutcome outcome).1 =
        true := by
  have honly : ∀ n,
      Ev.pageReq n ∈
        (runMainPass outcome (pagesToGenerate 3 ⟨cov, [1, 2], [3]⟩)
          (initResults 3 ⟨cov, [1, 2], [3]⟩)).1 →
      n = 3 := by
    intro n h
    obtain ⟨i, hi, hn⟩ := runMainPass_pageReq h
    have hptg : pagesToGenerate 3 ⟨cov, [1, 2], [3]⟩ = [2] := rfl
    rw [hptg] at hi
    rcases List.mem_singleton.mp hi with rfl
    exact hn
  cases cov with
  | true =>
    exact ⟨fun n h => honly n h, runMainPass_saved⟩
  | false =>
    cases coverOutcome with
    | true =>
      constructor
      · intro n h
        rcases List.mem_cons.mp h with h | h
        · cases h
        rcases List.mem_cons.mp h with h | h
        · cases h
        · exact honly n h
      · show savedAfterEachPageAttempt (Ev.coverReq :: Ev.saveCover :: _) =
          true
        rw [savedAfter_other_cons Ev.coverReq rfl,
          savedAfter_other_cons Ev.saveCover rfl]
        exact runMainPass_saved
    | false =>
      constructor
      · intro n h
        rcases List.mem_singleton.mp h with h
        cases h
      · rfl

/-- Witness for C3 at a concrete outcome: page 3 is requested (and every
requested page equals 3), and every attempt is followed by a save. -/
theorem resume_requests_only_page3_witness :
    (3 = 3) ∧
      savedAfterEachPageAttempt
        (storyImagePipeline 3 ⟨true, [1, 2], [3]⟩ true (fun _ => true)).1 =
        true :=
  ⟨(resume_requests_only_page3 true true (fun _ => true)).1 3 (by decide),
    (resume_requests_only_page3 true true (fun _ => true)).2⟩

/-! ## Per-page fallback in the generate-story endpoint

`src/app/api/generate-story/route.ts` lines 521-698
(`imagePromisesWithFallback`): each page beyond
`FEATURE_FLAGS.MAX_STORY_PAGES` (line 15, value 1) gets a "Limited"
placeholder; otherwise DALL-E is invoked, a 400 (content-policy) failure
triggers one retry with a simplified prompt, and any remaining failure
resolves to the failure placeholder URL — the promise never rejects, so
`Promise.all` (line 693) always resolves. -/

inductive DalleOutcome where
  | ok : List Char → DalleOutcome
  | httpError : Nat → DalleOutcome
  | connError : DalleOutcome
deriving DecidableEq

/-- External behaviour for one page: the outcome of the first DALL-E
call, and (when relevant) the URL delivered by the simplified-prompt
retry, `none` when that retry also fails. -/
structure PageImageBehavior where
  first : DalleOutcome
  retrySimplified : Option (List Char)
deriving DecidableEq

def MAX_STORY_PAGES : Nat := 1

/-- Line 687: the placeholder returned from the catch-all branch. -/
def failedPlaceholder : List Char :=
  "https://placehold.co/1024x1024/EEE/999?text=Image+Generation+Failed".data

/-- Line 525: the placeholder for pages beyond the limit. -/
def limitedPlaceholder (index : Nat) : List Char :=
  "https://placehold.co/1024x1024/EEE/999?text=Page+".data ++
    (Nat.repr index).data ++ ":+Limited".data

/-- The resolution of one mapped promise (lines 521-689). -/
def generateImageWithFallback (index : Nat) (b : PageImageBehavior) :
    List Char :=
  if MAX_STORY_PAGES < index then limitedPlaceholder index
  else
    match b.first with
    | DalleOutcome.ok url => url
    | DalleOutcome.httpError status =>
      if status = 400 then
        match b.retrySimplified with
        | some url => url
        | none => failedPlaceholder
      else failedPlaceholder
    | DalleOutcome.connError => failedPlaceholder

def generateAllImagesAux : Nat → List PageImageBehavior → List (List Char)
  | _, [] => []
  | i, b :: rest =>
    generateImageWithFallback i b :: generateAllImagesAux (i + 1) rest

/-- The call `Promise.all(imagePromisesWithFallback.slice(0, MAX_STORY_PAGES + 1))`
(lines 693-698): the map over all prompts, truncated to cover + 1 page. -/
def generateAllImages (behaviors : List PageImageBehavior) :
    List (List Char) :=
  (generateAllImagesAux 0 behaviors).take (MAX_STORY_PAGES + 1)

/-- The page's generation exhausted the attempt cap: the first call
failed and, when the failure was a content-policy 400, the simplified
retry failed too. -/
def exhaustedB (b : PageImageBehavior) : Bool :=
  match b.first with
  | DalleOutcome.ok _ => false
  | DalleOutcome.httpError status =>
    if status = 400 then b.retrySimplified.isNone else true
  | DalleOutcome.connError => true

theorem generateAllImagesAux_length :
    ∀ (bs : List PageImageBehavior) (j : Nat),
      (generateAllImagesAux j bs).length = bs.length := by
  intro bs
  induction bs with
  | nil => intro j; rfl
  | cons b rest ih =>
    intro j
    show (generateImageWithFallback j b ::
      generateAllImagesAux (j + 1) rest).length = (b :: rest).length
    simp [ih]

theorem generateAllImagesAux_get :
    ∀ (bs : List PageImageBehavior) (i j : Nat),
      (generateAllImagesAux j bs).get? i =
        (bs.get? i).map (fun b => generateImageWithFallback (j + i) b) := by
  intro bs
  induction bs with
  | nil => intro i j; simp [generateAllImagesAux]
  | cons b rest ih =>
    intro i j
    cases i with
    | zero => simp [generateAllImagesAux]
    | succ i =>
      show (generateAllImagesAux (j + 1) rest).get? i =
        (rest.get? i).map (fun b => generateImageWithFallback (j + (i + 1)) b)
      rw [ih i (j + 1)]
      have : j + 1 + i = j + (i + 1) := by omega
      rw [this]

theorem get_take_of_lt {α : Type} :
    ∀ (l : List α) (n i : Nat), i < n → (l.take n).get? i = l.get? i := by
  intro l
  induction l with
  | nil => intro n i _; simp
  | cons a rest ih =>
    intro n i hlt
    cases n with
    | zero => omega
    | succ n =>
      cases i with
      | zero => rfl
      | succ i =>
        show (rest.take n).get? i = rest.get? i
        exact ih n i (by omega)

/-- C4, counterexample: in the story-and-image endpoint, per-page failure
does make the whole request fail.  A fresh 2-page run in which page 1
succeeds and page 2 fails leaves `failedPages = [2]` with `0 < 1 < 2`,
so the retry pass is entered and the request aborts with a 500 — the
failed page receives no placeholder and the response is not a success. -/
theorem partial_failure_fails_request :
    (storyImagePipeline 2 ⟨true, [], []⟩ true (fun n => n == 1)).2.1.pagesGenerated
        = [1] ∧
      (storyImagePipeline 2 ⟨true, [], []⟩ true (fun n => n == 1)).2.1.failedPages
        = [2] ∧
      (storyImagePipeline 2 ⟨true, [], []⟩ true (fun n => n == 1)).2.2 =
        RunStatus.error500 := by
  refine ⟨?_, ?_, ?_⟩ <;> decide

/-- C4, amended: in the generate-story endpoint, every page within the
generation limit whose attempts are exhausted (including the simplified
retry after a content-policy violation) resolves to the failure
placeholder URL, and the image list still has an entry for every
processed page — that request never fails per-page.  In the
story-and-image endpoint, by contrast, a run where some but not all
pages fail enters the retry pass and aborts the whole request with a
500. -/
theorem imageFallback_degrades :
    (∀ (bs : List PageImageBehavior) (i : Nat) (b : PageImageBehavior),
        bs.get? i = some b → i ≤ MAX_STORY_PAGES → exhaustedB b = true →
        (generateAllImages bs).get? i = some failedPlaceholder ∧
          (generateAllImages bs).length =
            min (MAX_STORY_PAGES + 1) bs.length) ∧
      ∀ (numPages : Nat) (prog : Progress) (outcome : Nat → Bool),
        0 < (pagesPhase numPages prog outcome).2.1.failedPages.length →
        (pagesPhase numPages prog outcome).2.1.failedPages.length <
          (pagesPhase numPages prog outcome).2.1.total →
        (pagesPhase numPages prog outcome).2.2 = RunStatus.error500 := by
  constructor
  · intro bs i b hget hlim hex
    constructor
    · unfold generateAllImages
      rw [get_take_of_lt _ _ _ (by omega), generateAllImagesAux_get, hget]
      have hval : generateImageWithFallback (0 + i) b = failedPlaceholder := by
        unfold generateImageWithFallback
        rw [if_neg (by omega)]
        unfold exhaustedB at hex
        cases hb : b.first with
        | ok url =>
          rw [hb] at hex
          cases (show false = true from hex)
        | httpError status =>
          rw [hb] at hex
          have hex' : (if status = 400 then b.retrySimplified.isNone
              else true) = true := hex
          show (if status = 400 then
              match b.retrySimplified with
              | some url => url
              | none => failedPlaceholder
            else failedPlaceholder) = failedPlaceholder
          by_cases h400 : status = 400
          · rw [if_pos h400]
            rw [if_pos h400] at hex'
            cases hr : b.retrySimplified with
            | none => rfl
            | some url =>
              rw [hr] at hex'
              cases (show false = true from hex')
          · rw [if_neg h400]
        | connError => rfl
      rw [Option.map_some', hval]
    · unfold generateAllImages
      rw [List.length_take, generateAllImagesAux_length]
  · intro numPages prog outcome h1 h2
    show (if 0 < (pagesPhase numPages prog outcome).2.1.failedPages.length ∧
        (pagesPhase numPages prog outcome).2.1.failedPages.length <
          (pagesPhase numPages prog outcome).2.1.total then
      RunStatus.error500 else RunStatus.ok) = RunStatus.error500
    exact if_pos ⟨h1, h2⟩

/-- Witness for C4's amended theorem: a single page whose first call
fails with a connection error, and a 2-page run where exactly page 2
fails. -/
theorem imageFallback_degrades_witness :
    ((generateAllImages [⟨DalleOutcome.connError, none⟩]).get? 0 =
        some failedPlaceholder ∧
      (generateAllImages [⟨DalleOutcome.connError, none⟩]).length =
        min (MAX_STORY_PAGES + 1)
          ([⟨DalleOutcome.connError, none⟩] : List PageImageBehavior).length) ∧
      (pagesPhase 2 ⟨true, [], []⟩ (fun n => n == 1)).2.2 =
        RunStatus.error500 :=
  ⟨imageFallback_degrades.1 [⟨DalleOutcome.connError, none⟩] 0
      ⟨DalleOutcome.connError, none⟩ (by decide) (by decide) (by decide),
    imageFallback_degrades.2 2 ⟨true, [], []⟩ (fun n => n == 1)
      (by decide) (by decide)⟩

/-! ## PDF assembly

`generatePDF` from `src/unnamed/part_005` lines 92-334.  The first
element of `pages` is the cover; every further element becomes one
content page with a page-number label, the illustration (when its URL is
truthy), and the sanitized page text.  Fetching an image returns `null`
on failure (lines 47-90), which yields an "Image Not Available" text in
place of the image; image bytes that embed neither as JPEG nor as PNG
throw inside the per-image `try`, which is caught and yields an
"Error loading image" text (lines 247-316).  Both fallbacks leave the
page in the document, so the function never throws for image reasons. -/

/-- A page handed to `generatePDF` (empty `imageUrl` models a falsy
one). -/
structure PdfPageIn where
  text : List Char
  imageUrl : List Char
deriving DecidableEq

/-- External behaviour of fetching + embedding one image. -/
inductive ImgFetch where
  | fetchFailed : ImgFetch
  | jpg : ImgFetch
  | png : ImgFetch
  | undecodable : ImgFetch
deriving DecidableEq

/-- Draw operations placed on a PDF page (the layout geometry of the
external library is not modelled). -/
inductive PdfOp where
  | text : List Char → PdfOp
  | image : PdfOp
deriving DecidableEq

/-- Function `sanitizeTextForPdf` (lines 33-44): strip the five emoji/symbol
ranges, then trim. -/
def isEmojiRange (c : Char) : Bool :=
  (0x1F600 ≤ c.toNat && c.toNat ≤ 0x1F64F) ||
    (0x1F300 ≤ c.toNat && c.toNat ≤ 0x1F5FF) ||
    (0x1F680 ≤ c.toNat && c.toNat ≤ 0x1F6FF) ||
    (0x2600 ≤ c.toNat && c.toNat ≤ 0x26FF) ||
    (0x2700 ≤ c.toNat && c.toNat ≤ 0x27BF)

def sanitizeTextForPdf (s : List Char) : List Char :=
  jsTrim (s.filter (fun c => !isEmojiRange c))

def pageWord (spanish : Bool) : List Char :=
  if spanish then "Página".data else "Page".data

/-- The image slot of a page: an image op on success, fallback text
otherwise (lines 248-316; `pageNum` is the 1-based content page
number). -/
def imageSlot (pageNum : Nat) (f : ImgFetch) : List PdfOp :=
  match f with
  | ImgFetch.jpg => [PdfOp.image]
  | ImgFetch.png => [PdfOp.image]
  | ImgFetch.fetchFailed =>
    [PdfOp.text ("Image Not Available for Page ".data ++
      (Nat.repr pageNum).data)]
  | ImgFetch.undecodable =>
    [PdfOp.text ("Error loading image for page ".data ++
      (Nat.repr pageNum).data)]

/-- One content page (lines 231-330): page-number label, image slot when
the URL is truthy, then the sanitized text. -/
def contentPageOps (spanish : Bool) (i : Nat) (p : PdfPageIn)
    (f : ImgFetch) : List PdfOp :=
  [PdfOp.text (pageWord spanish ++ ' ' :: (Nat.repr (i + 1)).data)] ++
    (if p.imageUrl.isEmpty then [] else imageSlot (i + 1) f) ++
    [PdfOp.text (sanitizeTextForPdf p.text)]

/-- The cover-image slot (lines 159-226). -/
def coverSlot (f : ImgFetch) : List PdfOp :=
  match f with
  | ImgFetch.jpg => [PdfOp.image]
  | ImgFetch.png => [PdfOp.image]
  | ImgFetch.fetchFailed =>
    [PdfOp.text "Cover Image Not Available (Failed to load image)".data]
  | ImgFetch.undecodable =>
    [PdfOp.text "Error loading cover image".data]

/-- The cover page (lines 143-226): title, then the cover image slot. -/
def coverOps (title : List Char) (cover : PdfPageIn) (f : ImgFetch) :
    List PdfOp :=
  [PdfOp.text (sanitizeTextForPdf title)] ++
    (if cover.imageUrl.isEmpty then [] else coverSlot f)

def contentPagesOps (spanish : Bool) (fetch : Nat → ImgFetch) :
    Nat → List PdfPageIn → List (List PdfOp)
  | _, [] => []
  | i, p :: rest =>
    contentPageOps spanish i p (fetch (i + 1)) ::
      contentPagesOps spanish fetch (i + 1) rest

/-- Function `generatePDF` (lines 92-334): the cover page from `pages[0]`, then
one page per element of `pages.slice(1)`; `fetch n` is the external
fetch/embed behaviour of the cover (`n = 0`) resp. content page `n`. -/
def generatePDF (spanish : Bool) (title : List Char)
    (pages : List PdfPageIn) (fetch : Nat → ImgFetch) :
    List (List PdfOp) :=
  coverOps title (pages.headD ⟨[], []⟩) (fetch 0) ::
    contentPagesOps spanish fetch 0 pages.tail

/-- An op is one of the image-fallback texts. -/
def isImageFallbackText : PdfOp → Bool
  | PdfOp.text s =>
    containsSub "Image Not Available for Page".data s ||
      containsSub "Error loading image for page".data s
  | PdfOp.image => false

/-- C9: for every 2-page story document whose second page has an image
URL that cannot be fetched (`fetchFailed`) or embedded as JPEG or PNG
(`undecodable`), `generatePDF` still produces a 2-page document whose
second page carries a fallback text and no image, with the page text
still present. -/
theorem generatePDF_bad_image (spanish : Bool) (title : List Char)
    (p0 p1 : PdfPageIn) (fetch : Nat → ImgFetch)
    (himg : p1.imageUrl.isEmpty = false)
    (hf : fetch 1 = ImgFetch.fetchFailed ∨ fetch 1 = ImgFetch.undecodable) :
    (generatePDF spanish title [p0, p1] fetch).length = 2 ∧
      ((generatePDF spanish title [p0, p1] fetch).getD 1 []).any
          isImageFallbackText = true ∧
      PdfOp.image ∉ (generatePDF spanish title [p0, p1] fetch).getD 1 [] ∧
      PdfOp.text (sanitizeTextForPdf p1.text) ∈
        (generatePDF spanish title [p0, p1] fetch).getD 1 [] := by
  have hsecond : (generatePDF spanish title [p0, p1] fetch).getD 1 [] =
      contentPageOps spanish 0 p1 (fetch 1) := rfl
  have hops : contentPageOps spanish 0 p1 (fetch 1) =
      [PdfOp.text (pageWord spanish ++ ' ' :: (Nat.repr 1).data)] ++
        imageSlot 1 (fetch 1) ++
        [PdfOp.text (sanitizeTextForPdf p1.text)] := by
    unfold contentPageOps
    rw [himg]
    rfl
  refine ⟨rfl, ?_, ?_, ?_⟩
  · rw [hsecond, hops]
    rcases hf with hf | hf
    · rw [hf]
      refine List.any_eq_true.mpr
        ⟨PdfOp.text ("Image Not Available for Page ".data ++
          (Nat.repr 1).data), ?_, by decide⟩
      simp [imageSlot]
    · rw [hf]
      refine List.any_eq_true.mpr
        ⟨PdfOp.text ("Error loading image for page ".data ++
          (Nat.repr 1).data), ?_, by decide⟩
      simp [imageSlot]
  · rw [hsecond, hops]
    rcases hf with hf | hf <;> rw [hf] <;> simp [imageSlot]
  · rw [hsecond, hops]
    simp

/-- Witness for C9 at a concrete document with an unfetchable second
image. -/
theorem generatePDF_bad_image_witness :
    (generatePDF false "T".data
          [⟨[], "cover.png".data⟩, ⟨"Once upon".data, "page1.png".data⟩]
          (fun _ => ImgFetch.fetchFailed)).length = 2 ∧
      ((generatePDF false "T".data
            [⟨[], "cover.png".data⟩, ⟨"Once upon".data, "page1.png".data⟩]
            (fun _ => ImgFetch.fetchFailed)).getD 1 []).any
          isImageFallbackText = true ∧
      PdfOp.image ∉ (generatePDF false "T".data
          [⟨[], "cover.png".data⟩, ⟨"Once upon".data, "page1.png".data⟩]
          (fun _ => ImgFetch.fetchFailed)).getD 1 [] ∧
      PdfOp.text (sanitizeTextForPdf "Once upon".data) ∈
        (generatePDF false "T".data
            [⟨[], "cover.png".data⟩, ⟨"Once upon".data, "page1.png".data⟩]
            (fun _ => ImgFetch.fetchFailed)).getD 1 [] :=
  generatePDF_bad_image false "T".data ⟨[], "cover.png".data⟩
    ⟨"Once upon".data, "page1.png".data⟩ (fun _ => ImgFetch.fetchFailed)
    (by decide) (Or.inl rfl)

end Cuentos
